import Mathlib

/-
Verification of the hierarchical state-dispatch engine (`src/fsm.rs`) of the
async-hierarchical-fsm crate.

Shallow embedding conventions:
* Every lifecycle hook of the `Stateful` trait takes `&mut CTX` in Rust; here a
  hook is a pure function threading the context, `CTX → Response S × CTX`
  (`on_exit` returns only the context).  Handler-internal mutable state
  (`&mut self`) is not modelled: the engine's observable behaviour — current
  state, context, error results, which hooks ran — never depends on it for the
  properties verified below.
* The `HashMap<S, Box<dyn Stateful ...>>` registry is embedded as a lookup
  function `S → Option (Stateful S CTX E)`; it is never mutated by the engine.
* The two unbounded loops (`transition_to`'s enter-chain loop and
  `process_event`'s superstate-delegation loop) are given explicit fuel; an
  exhausted fuel yields the distinguished outcome `Outcome.fuelOut`, modelling
  the non-termination that the Rust loops exhibit on cyclic chains.
* Each run is instrumented with a trace of hook invocations (`Hook.enter`,
  `Hook.exit`, `Hook.event`) so that "this hook ran exactly once" style
  properties can be stated.  The trace entries are appended exactly where the
  Rust code awaits the corresponding hook.
* `std::time::Duration` is embedded as `Nat` (its value is opaque to the
  engine, which only passes it through).
-/

namespace Fsm

/-- Embedding of `Response<S>` (src/fsm.rs, lines 102-112). -/
inductive Response (S : Type) where
  | Handled
  | Error (msg : String)
  | Transition (s : S)
  | Super
deriving DecidableEq

/-- Embedding of the `Stateful` trait (src/fsm.rs, lines 61-99): each hook is a
pure function threading the shared context.  `get_timeout` defaults to `none`,
mirroring the trait's provided default body (lines 96-98). -/
structure Stateful (S CTX E : Type) where
  on_enter : CTX → Response S × CTX
  on_event : E → CTX → Response S × CTX
  on_exit : CTX → CTX
  get_timeout : CTX → Option Nat := fun _ => none

/-- Embedding of `FsmError<S>` (src/error.rs). -/
inductive Error (S : Type) where
  | StateMachineNotInitialized
  | StateInvalid (s : S) (msg : String)
  | InvalidEvent (s : S) (msg : String)
  | StateNotRegistered (s : S)
  | OnEnterSuper (s : S)
  | Custom (msg : String)
deriving DecidableEq

/-- One recorded hook invocation, for trace instrumentation. -/
inductive Hook (S : Type) where
  | enter (s : S)
  | exit (s : S)
  | event (s : S)
deriving DecidableEq

/-- Result of a fuelled run: `ok` and `err` mirror the Rust
`Result<(), Error<S>>`; `fuelOut` marks fuel exhaustion (the Rust loop would
still be running). -/
inductive Outcome (S : Type) where
  | ok
  | err (e : Error S)
  | fuelOut
deriving DecidableEq

/-- Embedding of `StateMachine<S, CTX, E>` (src/fsm.rs, lines 115-131).  The
debug-only PlantUML transition log is compiled out in release builds and is
not part of the verified core. -/
structure StateMachine (S CTX E : Type) where
  states : S → Option (Stateful S CTX E)
  current_state : Option S
  context : CTX
  superstate_fn : S → Option S
  initial_state : Option S

variable {S CTX E : Type}

/-- The exit step at the top of each `transition_to` loop iteration
(src/fsm.rs, lines 199-204): if a current state exists and is registered, run
its `on_exit`; otherwise the context is untouched and no hook runs. -/
def exitStep (m : StateMachine S CTX E) : CTX × List (Hook S) :=
  match m.current_state with
  | some current =>
    match m.states current with
    | some h => (h.on_exit m.context, [Hook.exit current])
    | none => (m.context, [])
  | none => (m.context, [])

/-- Embedding of `StateMachine::transition_to` (src/fsm.rs, lines 193-249).
Per loop iteration: run the exit step for the old current state, set
`current_state` to the target BEFORE the registry lookup (line 207), fail with
`StateNotRegistered` if the target is absent, otherwise run `on_enter` and
branch on its response exactly as the Rust `match` does. -/
def transition_to : Nat → StateMachine S CTX E → S → Outcome S × StateMachine S CTX E × List (Hook S)
  | 0, m, _ => (Outcome.fuelOut, m, [])
  | fuel+1, m, target =>
    match m.states target with
    | none =>
      (Outcome.err (Error.StateNotRegistered target),
       { m with context := (exitStep m).1, current_state := some target },
       (exitStep m).2)
    | some h =>
      match (h.on_enter (exitStep m).1).1 with
      | Response.Handled =>
        (Outcome.ok,
         { m with context := (h.on_enter (exitStep m).1).2, current_state := some target },
         (exitStep m).2 ++ [Hook.enter target])
      | Response.Transition ns =>
        ((transition_to fuel { m with context := (h.on_enter (exitStep m).1).2, current_state := some target } ns).1,
         (transition_to fuel { m with context := (h.on_enter (exitStep m).1).2, current_state := some target } ns).2.1,
         (exitStep m).2 ++ Hook.enter target ::
           (transition_to fuel { m with context := (h.on_enter (exitStep m).1).2, current_state := some target } ns).2.2)
      | Response.Error msg =>
        (Outcome.err (Error.StateInvalid target msg),
         { m with context := (h.on_enter (exitStep m).1).2, current_state := some target },
         (exitStep m).2 ++ [Hook.enter target])
      | Response.Super =>
        (Outcome.err (Error.OnEnterSuper target),
         { m with context := (h.on_enter (exitStep m).1).2, current_state := some target },
         (exitStep m).2 ++ [Hook.enter target])

/-- Embedding of `StateMachine::init` (src/fsm.rs, lines 159-162): record the
initial state, then run the transition protocol. -/
def init (fuel : Nat) (m : StateMachine S CTX E) (state : S) :
    Outcome S × StateMachine S CTX E × List (Hook S) :=
  transition_to fuel { m with initial_state := some state } state

/-- The `loop` of `StateMachine::process_event` (src/fsm.rs, lines 258-295),
parameterised by the local `current_state` variable `active` that climbs the
superstate chain.  `fuel` bounds the delegation loop, `tfuel` is handed to
`transition_to` when a transition is requested. -/
def process_event_from : Nat → Nat → StateMachine S CTX E → E → S → Outcome S × StateMachine S CTX E × List (Hook S)
  | 0, _, m, _, _ => (Outcome.fuelOut, m, [])
  | fuel+1, tfuel, m, e, active =>
    match m.states active with
    | none => (Outcome.err (Error.StateNotRegistered active), m, [])
    | some h =>
      match (h.on_event e m.context).1 with
      | Response.Handled =>
        (Outcome.ok, { m with context := (h.on_event e m.context).2 }, [Hook.event active])
      | Response.Transition ns =>
        ((transition_to tfuel { m with context := (h.on_event e m.context).2 } ns).1,
         (transition_to tfuel { m with context := (h.on_event e m.context).2 } ns).2.1,
         Hook.event active ::
           (transition_to tfuel { m with context := (h.on_event e m.context).2 } ns).2.2)
      | Response.Super =>
        match m.superstate_fn active with
        | some sup =>
          ((process_event_from fuel tfuel { m with context := (h.on_event e m.context).2 } e sup).1,
           (process_event_from fuel tfuel { m with context := (h.on_event e m.context).2 } e sup).2.1,
           Hook.event active ::
             (process_event_from fuel tfuel { m with context := (h.on_event e m.context).2 } e sup).2.2)
        | none =>
          (Outcome.err (Error.InvalidEvent active "Unhandled event, no superstate available"),
           { m with context := (h.on_event e m.context).2 }, [Hook.event active])
      | Response.Error msg =>
        (Outcome.err (Error.InvalidEvent active msg),
         { m with context := (h.on_event e m.context).2 }, [Hook.event active])

/-- Embedding of `StateMachine::process_event` (src/fsm.rs, lines 252-296):
fail with `StateMachineNotInitialized` when no current state is set, otherwise
start the delegation loop at the current state. -/
def process_event (fuel tfuel : Nat) (m : StateMachine S CTX E) (e : E) :
    Outcome S × StateMachine S CTX E × List (Hook S) :=
  match m.current_state with
  | none => (Outcome.err Error.StateMachineNotInitialized, m, [])
  | some cur => process_event_from fuel tfuel m e cur

/-- Embedding of `StateMachine::get_current_timeout` (src/fsm.rs, lines
165-172): ask the current state's handler with the current context; `none` if
uninitialized or the current state is not registered. -/
def get_current_timeout (m : StateMachine S CTX E) : Option Nat :=
  match m.current_state with
  | some current =>
    match m.states current with
    | some state => state.get_timeout m.context
    | none => none
  | none => none

/-- Derivations of the superstate-delegation loop ending in `Handled`:
`HandledVia states sfn e n a c c2` holds when, starting at state `a` with
context `c`, the event `e` is delegated upward `n` times (each consulted
handler returning `Super` and possibly mutating the context) and the state
reached last returns `Handled`, leaving context `c2`. -/
inductive HandledVia (states : S → Option (Stateful S CTX E)) (sfn : S → Option S) (e : E) :
    Nat → S → CTX → CTX → Prop where
  | handled (a : S) (h : Stateful S CTX E) (c c2 : CTX) :
      states a = some h → h.on_event e c = (Response.Handled, c2) →
      HandledVia states sfn e 0 a c c2
  | delegate (n : Nat) (a b : S) (h : Stateful S CTX E) (c c1 c2 : CTX) :
      states a = some h → h.on_event e c = (Response.Super, c1) →
      sfn a = some b → HandledVia states sfn e n b c1 c2 →
      HandledVia states sfn e (n + 1) a c c2

/-- Derivations of the superstate-delegation loop ending in `Error`:
`ErrsVia states sfn e n a c z msg c2` holds when, starting at state `a` with
context `c`, the event is delegated upward `n` times and the state `z`
reached last returns `Error msg`, leaving context `c2`. -/
inductive ErrsVia (states : S → Option (Stateful S CTX E)) (sfn : S → Option S) (e : E) :
    Nat → S → CTX → S → String → CTX → Prop where
  | here (a : S) (h : Stateful S CTX E) (c : CTX) (msg : String) (c2 : CTX) :
      states a = some h → h.on_event e c = (Response.Error msg, c2) →
      ErrsVia states sfn e 0 a c a msg c2
  | delegate (n : Nat) (a b : S) (h : Stateful S CTX E) (c c1 : CTX) (z : S) (msg : String) (c2 : CTX) :
      states a = some h → h.on_event e c = (Response.Super, c1) →
      sfn a = some b → ErrsVia states sfn e n b c1 z msg c2 →
      ErrsVia states sfn e (n + 1) a c z msg c2

/-- Derivations of an exhausted superstate-delegation chain:
`ExhaustsVia states sfn e n a c z c2` holds when, starting at state `a` with
context `c`, every consulted handler returns `Super` and the chain terminates
after `n` delegations at the topmost reached state `z`, which has no
superstate; `c2` is the context after `z`'s handler ran. -/
inductive ExhaustsVia (states : S → Option (Stateful S CTX E)) (sfn : S → Option S) (e : E) :
    Nat → S → CTX → S → CTX → Prop where
  | top (a : S) (h : Stateful S CTX E) (c c1 : CTX) :
      states a = some h → h.on_event e c = (Response.Super, c1) → sfn a = none →
      ExhaustsVia states sfn e 0 a c a c1
  | delegate (n : Nat) (a b : S) (h : Stateful S CTX E) (c c1 : CTX) (z : S) (c2 : CTX) :
      states a = some h → h.on_event e c = (Response.Super, c1) →
      sfn a = some b → ExhaustsVia states sfn e n b c1 z c2 →
      ExhaustsVia states sfn e (n + 1) a c z c2

/-! Concrete instances used to exhibit runs of the engine.  States are `Nat`,
events are `Unit`, contexts are `Nat` or `Nat × Nat`. -/

/-- A handler that accepts entry and handles every event without transition. -/
def idleHandler : Stateful Nat Nat Unit where
  on_enter := fun c => (Response.Handled, c)
  on_event := fun _ c => (Response.Handled, c)
  on_exit := fun c => c

/-- A handler whose `on_event` always requests a transition to state `1`. -/
def toOneHandler : Stateful Nat Nat Unit where
  on_enter := fun c => (Response.Handled, c)
  on_event := fun _ c => (Response.Transition 1, c)
  on_exit := fun c => c

/-- Registry registering only state `0` (with `toOneHandler`); the transition
target `1` is deliberately left unregistered. -/
def regMissingTarget : Nat → Option (Stateful Nat Nat Unit)
  | 0 => some toOneHandler
  | _ => none

/-- Engine over `regMissingTarget`, not yet initialized. -/
def mMissingStart : StateMachine Nat Nat Unit where
  states := regMissingTarget
  current_state := none
  context := 0
  superstate_fn := fun _ => none
  initial_state := none

/-- The engine after `init 0` (succeeds) and one processed event, whose
handler requests a transition to the unregistered state `1`. -/
def mMissing : StateMachine Nat Nat Unit :=
  (process_event 1 1 (init 1 mMissingStart 0).2.1 ()).2.1

/-- A handler whose timeout depends on the live context value. -/
def contextTimeoutHandler : Stateful Nat Nat Unit where
  on_enter := fun c => (Response.Handled, c)
  on_event := fun _ c => (Response.Handled, c + 1)
  on_exit := fun c => c
  get_timeout := fun c => if c > 5 then some 5 else some 10

/-- Registry registering only state `0` (with `contextTimeoutHandler`). -/
def regTimeout : Nat → Option (Stateful Nat Nat Unit)
  | 0 => some contextTimeoutHandler
  | _ => none

/-- Initialized engine sitting in state `0` with context `0`. -/
def mTimeout : StateMachine Nat Nat Unit where
  states := regTimeout
  current_state := some 0
  context := 0
  superstate_fn := fun _ => none
  initial_state := some 0

/-- A handler whose `on_enter` always fails with message `"boom"`. -/
def errorEnterHandler : Stateful Nat Nat Unit where
  on_enter := fun c => (Response.Error "boom", c)
  on_event := fun _ c => (Response.Handled, c)
  on_exit := fun c => c

/-- Registry with a well-behaved state `0` and the failing-entry state `1`. -/
def regErrorEnter : Nat → Option (Stateful Nat Nat Unit)
  | 0 => some idleHandler
  | 1 => some errorEnterHandler
  | _ => none

/-- Engine currently in state `0`, about to transition to the failing state. -/
def mErrorEnter : StateMachine Nat Nat Unit where
  states := regErrorEnter
  current_state := some 0
  context := 0
  superstate_fn := fun _ => none
  initial_state := some 0

/-- Child handler for the delegation scenario: it records its mutation in the
first context component, then delegates with `Super`. -/
def childHandler : Stateful Nat (Nat × Nat) Unit where
  on_enter := fun c => (Response.Handled, c)
  on_event := fun _ c => (Response.Super, (1, c.2))
  on_exit := fun c => c

/-- Parent handler for the delegation scenario: it records its mutation in the
second context component and handles the event. -/
def parentHandler : Stateful Nat (Nat × Nat) Unit where
  on_enter := fun c => (Response.Handled, c)
  on_event := fun _ c => (Response.Handled, (c.1, 2))
  on_exit := fun c => c

/-- Registry for the delegation scenario: child `0`, parent `1`. -/
def regDeleg : Nat → Option (Stateful Nat (Nat × Nat) Unit)
  | 0 => some childHandler
  | 1 => some parentHandler
  | _ => none

/-- Superstate resolver for the delegation scenario: parent of `0` is `1`. -/
def sfnDeleg : Nat → Option Nat
  | 0 => some 1
  | _ => none

/-- Engine sitting in child state `0` with pristine context `(0, 0)`. -/
def mDeleg : StateMachine Nat (Nat × Nat) Unit where
  states := regDeleg
  current_state := some 0
  context := (0, 0)
  superstate_fn := sfnDeleg
  initial_state := some 0

/-- An engine with no registered states and no current state: `init` has never
run on it. -/
def mUninit : StateMachine Nat Nat Unit where
  states := fun _ => none
  current_state := none
  context := 0
  superstate_fn := fun _ => none
  initial_state := none

/-- A handler whose `on_event` always fails with message `"nope"`. -/
def errorEventHandler : Stateful Nat Nat Unit where
  on_enter := fun c => (Response.Handled, c)
  on_event := fun _ c => (Response.Error "nope", c)
  on_exit := fun c => c

/-- Registry registering only state `0` (with `errorEventHandler`). -/
def regErrEvent : Nat → Option (Stateful Nat Nat Unit)
  | 0 => some errorEventHandler
  | _ => none

/-- Engine sitting in state `0`, whose handler rejects every event. -/
def mErrEvent : StateMachine Nat Nat Unit where
  states := regErrEvent
  current_state := some 0
  context := 0
  superstate_fn := fun _ => none
  initial_state := some 0

/-- A handler that delegates every event to its superstate. -/
def superHandler : Stateful Nat Nat Unit where
  on_enter := fun c => (Response.Handled, c)
  on_event := fun _ c => (Response.Super, c)
  on_exit := fun c => c

/-- Registry for the exhausted-delegation scenario: states `0` and `1`, both
delegating every event upward. -/
def regExhaust : Nat → Option (Stateful Nat Nat Unit)
  | 0 => some superHandler
  | 1 => some superHandler
  | _ => none

/-- Resolver for the exhausted-delegation scenario: `0`'s parent is `1`, and
`1` is a root. -/
def sfnExhaust : Nat → Option Nat
  | 0 => some 1
  | _ => none

/-- Engine sitting in state `0`, whose whole hierarchy delegates without
handling. -/
def mExhaust : StateMachine Nat Nat Unit where
  states := regExhaust
  current_state := some 0
  context := 0
  superstate_fn := sfnExhaust
  initial_state := some 0

/-- A handler whose `on_enter` unconditionally requests a transition to state
`0` (the enter-triggered re-transition scenario). -/
def enterLoopHandler : Stateful Nat Nat Unit where
  on_enter := fun c => (Response.Transition 0, c)
  on_event := fun _ c => (Response.Handled, c)
  on_exit := fun c => c

/-- Registry for the enter-chain scenario: state `1` re-transitions on enter
to the plain state `0`. -/
def regLoop : Nat → Option (Stateful Nat Nat Unit)
  | 0 => some idleHandler
  | 1 => some enterLoopHandler
  | _ => none

/-- Fresh engine over `regLoop`, about to be driven into the looping state. -/
def mLoop : StateMachine Nat Nat Unit where
  states := regLoop
  current_state := none
  context := 0
  superstate_fn := fun _ => none
  initial_state := none

end Fsm

namespace Fsm

variable {S CTX E : Type}

/-- C9: an engine on which `init` has never run has `current_state = none`;
`process_event` then fails immediately with `StateMachineNotInitialized`,
returning the engine completely unchanged and having run no hook at all
(empty trace). -/
theorem c9_uninitialized_process_event (fuel tfuel : Nat) (m : StateMachine S CTX E)
    (e : E) (hcur : m.current_state = none) :
    process_event fuel tfuel m e = (Outcome.err Error.StateMachineNotInitialized, m, []) := by
  simp [process_event, hcur]

/-- C9 witness: the uninitialized engine `mUninit` fails exactly this way. -/
theorem c9_uninitialized_witness :
    process_event 1 1 mUninit () = (Outcome.err Error.StateMachineNotInitialized, mUninit, []) :=
  c9_uninitialized_process_event 1 1 mUninit () rfl

/-- C8: `get_current_timeout` is exactly the current state's `get_timeout`
handler applied to the current context; it is a pure function of the engine's
present fields (no caching), so replacing only the context changes the result
to the handler's value at the new context; it is `none` on an uninitialized
engine, and a handler that keeps the default `get_timeout` yields `none`. -/
theorem c8_timeout_recomputed_from_context (m : StateMachine S CTX E) (s : S)
    (h : Stateful S CTX E) (hcur : m.current_state = some s) (hreg : m.states s = some h) :
    get_current_timeout m = h.get_timeout m.context ∧
    (∀ c : CTX, get_current_timeout { m with context := c } = h.get_timeout c) ∧
    (h.get_timeout = (fun _ => none) → get_current_timeout m = none) ∧
    (∀ m2 : StateMachine S CTX E, m2.current_state = none → get_current_timeout m2 = none) := by
  refine ⟨?_, ?_, ?_, ?_⟩
  · simp [get_current_timeout, hcur, hreg]
  · intro c
    simp [get_current_timeout, hcur, hreg]
  · intro hdef
    simp [get_current_timeout, hcur, hreg, hdef]
  · intro m2 h2
    simp [get_current_timeout, h2]

/-- C8 witness: on `mTimeout` the reported timeout is the handler's value at
the live context (`some 10` at context `0`, `some 5` at context `6`), and the
uninitialized engine reports `none`. -/
theorem c8_timeout_witness :
    get_current_timeout mTimeout = contextTimeoutHandler.get_timeout mTimeout.context ∧
    get_current_timeout { mTimeout with context := 6 } = contextTimeoutHandler.get_timeout 6 ∧
    get_current_timeout mUninit = none ∧
    contextTimeoutHandler.get_timeout mTimeout.context = some 10 ∧
    contextTimeoutHandler.get_timeout 6 = some 5 :=
  ⟨(c8_timeout_recomputed_from_context mTimeout 0 contextTimeoutHandler rfl rfl).1,
   (c8_timeout_recomputed_from_context mTimeout 0 contextTimeoutHandler rfl rfl).2.1 6,
   (c8_timeout_recomputed_from_context mTimeout 0 contextTimeoutHandler rfl rfl).2.2.2 mUninit rfl,
   by decide, by decide⟩

/-- C10: when the current-state slot holds an identifier absent from the
registry, `get_current_timeout` silently returns `none` instead of an error:
the failed lookup is absorbed at this interface. -/
theorem c10_timeout_unregistered_none (m : StateMachine S CTX E) (s : S)
    (hcur : m.current_state = some s) (hmiss : m.states s = none) :
    get_current_timeout m = none := by
  simp [get_current_timeout, hcur, hmiss]

/-- C10 witness: `mMissing` — reached by a successful `init 0` followed by an
event whose handler transitions to the unregistered state `1` — has
`current_state = some 1` with `1` unregistered, and its timeout query returns
`none` rather than an error. -/
theorem c10_timeout_unregistered_witness :
    mMissing.current_state = some 1 ∧ mMissing.states 1 = none ∧
    get_current_timeout mMissing = none :=
  ⟨rfl, rfl, c10_timeout_unregistered_none mMissing 1 rfl rfl⟩

/-- C5: if the transition target's `on_enter` — invoked on the context the
exit step actually produced — returns `Error msg`, the transition protocol
fails with `StateInvalid(target, msg)` and leaves `current_state` pointing at
the failed target — no rollback to the previous state. -/
theorem c5_enter_error_no_rollback (fuel : Nat) (m : StateMachine S CTX E) (t : S)
    (ht : Stateful S CTX E) (msg : String) (hreg : m.states t = some ht)
    (henter : (ht.on_enter (exitStep m).1).1 = Response.Error msg) :
    (transition_to (fuel + 1) m t).1 = Outcome.err (Error.StateInvalid t msg) ∧
    (transition_to (fuel + 1) m t).2.1.current_state = some t := by
  simp [transition_to, hreg, henter]

/-- C5 witness: transitioning `mErrorEnter` (current state `0`) to the
failing state `1` yields `StateInvalid 1 "boom"` and leaves the engine in
state `1`, not rolled back to `0`. -/
theorem c5_enter_error_witness :
    (transition_to 1 mErrorEnter 1).1 = Outcome.err (Error.StateInvalid 1 "boom") ∧
    (transition_to 1 mErrorEnter 1).2.1.current_state = some 1 :=
  c5_enter_error_no_rollback 0 mErrorEnter 1 errorEnterHandler "boom" rfl rfl

/-- C4: if the current state `a`'s `on_event` mutates the context to `ca` and
returns `Super`, the resolver maps `a` to `b`, and `b`'s `on_event` on `ca`
mutates the context to `cb` and returns `Handled`, then `process_event`
succeeds and the final context is `cb` — B's mutation applied on top of A's
pre-delegation mutation, so both are visible; the current state is untouched. -/
theorem c4_super_delegation_context_visible (tfuel : Nat) (m : StateMachine S CTX E)
    (e : E) (a b : S) (ha hb : Stateful S CTX E) (ca cb : CTX)
    (hcur : m.current_state = some a) (hra : m.states a = some ha)
    (heva : ha.on_event e m.context = (Response.Super, ca))
    (hsup : m.superstate_fn a = some b) (hrb : m.states b = some hb)
    (hevb : hb.on_event e ca = (Response.Handled, cb)) :
    process_event 2 tfuel m e = (Outcome.ok, { m with context := cb }, [Hook.event a, Hook.event b]) := by
  simp [process_event, process_event_from, hcur, hra, heva, hsup, hrb, hevb]

/-- C4 witness: in `mDeleg`, child `0` writes `1` into the first context
component and delegates; parent `1` writes `2` into the second component and
handles.  The call succeeds and the final context `(1, 2)` shows both
mutations. -/
theorem c4_delegation_witness :
    process_event 2 1 mDeleg () =
      (Outcome.ok, { mDeleg with context := (1, 2) }, [Hook.event 0, Hook.event 1]) :=
  c4_super_delegation_context_visible 1 mDeleg () 0 1 childHandler parentHandler
    (1, 0) (1, 2) rfl rfl rfl rfl rfl rfl

/-- A delegation chain ending in `Handled` runs the `process_event` loop to a
successful stop: only the context changes, to the chain's final context. -/
theorem process_event_from_of_handledVia {states : S → Option (Stateful S CTX E)}
    {sfn : S → Option S} {e : E} (tfuel : Nat) {n : Nat} {a : S} {c c2 : CTX}
    (hv : HandledVia states sfn e n a c c2) :
    ∀ m : StateMachine S CTX E, m.states = states → m.superstate_fn = sfn → m.context = c →
      (process_event_from (n + 1) tfuel m e a).1 = Outcome.ok ∧
      (process_event_from (n + 1) tfuel m e a).2.1 = { m with context := c2 } := by
  induction hv with
  | handled a h c c2 h1 h2 =>
    intro m hm hsfn hc
    subst hm; subst hc
    simp [process_event_from, h1, h2]
  | delegate n a b h c c1 c2 h1 h2 h3 _ ih =>
    intro m hm hsfn hc
    subst hm; subst hsfn; subst hc
    have ihm := ih { m with context := c1 } rfl rfl rfl
    simp only [process_event_from, h1, h2, h3]
    exact ⟨ihm.1, ihm.2⟩

/-- C6: if the event's dispatch — at the active state or at an ancestor
reached by `Super` delegation — ends with a handler returning `Handled`, then
`process_event` succeeds and `current_state` is exactly what it was before the
call; only the context may have changed (to the chain's final context `c2`). -/
theorem c6_handled_preserves_current_state (n tfuel : Nat) (m : StateMachine S CTX E)
    (e : E) (a : S) (c2 : CTX) (hcur : m.current_state = some a)
    (hv : HandledVia m.states m.superstate_fn e n a m.context c2) :
    (process_event (n + 1) tfuel m e).1 = Outcome.ok ∧
    (process_event (n + 1) tfuel m e).2.1.current_state = m.current_state ∧
    (process_event (n + 1) tfuel m e).2.1 = { m with context := c2 } := by
  have h := process_event_from_of_handledVia tfuel hv m rfl rfl rfl
  have hpe : process_event (n + 1) tfuel m e = process_event_from (n + 1) tfuel m e a := by
    simp [process_event, hcur]
  rw [hpe]
  exact ⟨h.1, by rw [h.2], h.2⟩

/-- C6 witness: in `mDeleg`, the event is delegated once (child `0` returns
`Super`) and handled by the parent `1`; the call succeeds and the settled
current state is still `0`, unchanged from before the call. -/
theorem c6_handled_witness :
    (process_event 2 1 mDeleg ()).1 = Outcome.ok ∧
    (process_event 2 1 mDeleg ()).2.1.current_state = mDeleg.current_state ∧
    (process_event 2 1 mDeleg ()).2.1 = { mDeleg with context := (1, 2) } :=
  c6_handled_preserves_current_state 1 1 mDeleg () 0 (1, 2) rfl
    (HandledVia.delegate 0 0 1 childHandler (0, 0) (1, 0) (1, 2) rfl rfl rfl
      (HandledVia.handled 1 parentHandler (1, 0) (1, 2) rfl rfl))

/-- A delegation chain ending in `Error msg` at state `z` makes the
`process_event` loop fail with `InvalidEvent z msg`, changing only the
context. -/
theorem process_event_from_of_errsVia {states : S → Option (Stateful S CTX E)}
    {sfn : S → Option S} {e : E} (tfuel : Nat) {n : Nat} {a z : S} {msg : String} {c c2 : CTX}
    (hv : ErrsVia states sfn e n a c z msg c2) :
    ∀ m : StateMachine S CTX E, m.states = states → m.superstate_fn = sfn → m.context = c →
      (process_event_from (n + 1) tfuel m e a).1 = Outcome.err (Error.InvalidEvent z msg) ∧
      (process_event_from (n + 1) tfuel m e a).2.1 = { m with context := c2 } := by
  induction hv with
  | here a h c msg c2 h1 h2 =>
    intro m hm hsfn hc
    subst hm; subst hc
    simp [process_event_from, h1, h2]
  | delegate n a b h c c1 z msg c2 h1 h2 h3 _ ih =>
    intro m hm hsfn hc
    subst hm; subst hsfn; subst hc
    have ihm := ih { m with context := c1 } rfl rfl rfl
    simp only [process_event_from, h1, h2, h3]
    exact ⟨ihm.1, ihm.2⟩

/-- C7: if the handler consulted for the event — the active state or an
ancestor reached by delegation — returns `Error msg`, then `process_event`
fails with `InvalidEvent` carrying that consulted state's identifier and
`msg`, and `current_state` is not changed by the call. -/
theorem c7_event_error_invalid_event (n tfuel : Nat) (m : StateMachine S CTX E)
    (e : E) (a z : S) (msg : String) (c2 : CTX) (hcur : m.current_state = some a)
    (hv : ErrsVia m.states m.superstate_fn e n a m.context z msg c2) :
    (process_event (n + 1) tfuel m e).1 = Outcome.err (Error.InvalidEvent z msg) ∧
    (process_event (n + 1) tfuel m e).2.1.current_state = m.current_state ∧
    (process_event (n + 1) tfuel m e).2.1 = { m with context := c2 } := by
  have h := process_event_from_of_errsVia tfuel hv m rfl rfl rfl
  have hpe : process_event (n + 1) tfuel m e = process_event_from (n + 1) tfuel m e a := by
    simp [process_event, hcur]
  rw [hpe]
  exact ⟨h.1, by rw [h.2], h.2⟩

/-- C7 witness: in `mErrEvent` the active state `0` rejects the event with
message `"nope"`; the call fails with `InvalidEvent 0 "nope"` and the current
state is unchanged. -/
theorem c7_event_error_witness :
    (process_event 1 1 mErrEvent ()).1 = Outcome.err (Error.InvalidEvent 0 "nope") ∧
    (process_event 1 1 mErrEvent ()).2.1.current_state = mErrEvent.current_state ∧
    (process_event 1 1 mErrEvent ()).2.1 = { mErrEvent with context := 0 } :=
  c7_event_error_invalid_event 0 1 mErrEvent () 0 0 "nope" 0 rfl
    (ErrsVia.here 0 errorEventHandler 0 "nope" 0 rfl rfl)

/-- An exhausted delegation chain (every consulted handler returns `Super`,
the topmost reached state `z` has no superstate) makes the `process_event`
loop fail with `InvalidEvent z "Unhandled event, no superstate available"`,
changing only the context. -/
theorem process_event_from_of_exhaustsVia {states : S → Option (Stateful S CTX E)}
    {sfn : S → Option S} {e : E} (tfuel : Nat) {n : Nat} {a z : S} {c c2 : CTX}
    (hv : ExhaustsVia states sfn e n a c z c2) :
    ∀ m : StateMachine S CTX E, m.states = states → m.superstate_fn = sfn → m.context = c →
      (process_event_from (n + 1) tfuel m e a).1 =
        Outcome.err (Error.InvalidEvent z "Unhandled event, no superstate available") ∧
      (process_event_from (n + 1) tfuel m e a).2.1 = { m with context := c2 } := by
  induction hv with
  | top a h c c1 h1 h2 h3 =>
    intro m hm hsfn hc
    subst hm; subst hsfn; subst hc
    simp [process_event_from, h1, h2, h3]
  | delegate n a b h c c1 z c2 h1 h2 h3 _ ih =>
    intro m hm hsfn hc
    subst hm; subst hsfn; subst hc
    have ihm := ih { m with context := c1 } rfl rfl rfl
    simp only [process_event_from, h1, h2, h3]
    exact ⟨ihm.1, ihm.2⟩

/-- C3 counterexample: in `mExhaust` (active state `0` delegates to `1`, which
is a root and also returns `Super`), `process_event` does fail with
`InvalidEvent` naming the topmost state `1`, but its message is
`"Unhandled event, no superstate available"`, not the bare
`"no superstate available"` the claim states. -/
theorem c3_exhausted_message_counterexample :
    (process_event 2 1 mExhaust ()).1 =
      Outcome.err (Error.InvalidEvent 1 "Unhandled event, no superstate available") ∧
    (process_event 2 1 mExhaust ()).1 ≠ Outcome.err (Error.InvalidEvent 1 "no superstate available") := by
  constructor
  · rfl
  · decide

/-- C3 (amended): for every initialized engine and every event such that each
state in the superstate chain starting at the current state returns `Super`
and the topmost reached state `z` has no superstate, `process_event` fails
with `InvalidEvent` carrying the identifier of the last (topmost reached)
state — not the original active state — with the message
`"Unhandled event, no superstate available"`; the current state is unchanged. -/
theorem c3_exhausted_delegation_names_topmost (n tfuel : Nat) (m : StateMachine S CTX E)
    (e : E) (a z : S) (c2 : CTX) (hcur : m.current_state = some a)
    (hv : ExhaustsVia m.states m.superstate_fn e n a m.context z c2) :
    (process_event (n + 1) tfuel m e).1 =
      Outcome.err (Error.InvalidEvent z "Unhandled event, no superstate available") ∧
    (process_event (n + 1) tfuel m e).2.1.current_state = m.current_state := by
  have h := process_event_from_of_exhaustsVia tfuel hv m rfl rfl rfl
  have hpe : process_event (n + 1) tfuel m e = process_event_from (n + 1) tfuel m e a := by
    simp [process_event, hcur]
  rw [hpe]
  exact ⟨h.1, by rw [h.2]⟩

/-- C3 witness: in `mExhaust`, the chain `0 → 1` is exhausted after one
delegation and the error names the topmost state `1`, not the original active
state `0`. -/
theorem c3_exhausted_witness :
    (process_event 2 1 mExhaust ()).1 =
      Outcome.err (Error.InvalidEvent 1 "Unhandled event, no superstate available") ∧
    (process_event 2 1 mExhaust ()).2.1.current_state = mExhaust.current_state :=
  c3_exhausted_delegation_names_topmost 1 1 mExhaust () 0 1 0 rfl
    (ExhaustsVia.delegate 0 0 1 superHandler 0 0 1 0 rfl rfl rfl
      (ExhaustsVia.top 1 superHandler 0 0 rfl rfl rfl))

/-- The transition protocol never touches the registry. -/
theorem transition_to_states (fuel : Nat) :
    ∀ (m : StateMachine S CTX E) (t : S), ((transition_to fuel m t).2.1).states = m.states := by
  induction fuel with
  | zero => intro m t; rfl
  | succ f ih =>
    intro m t
    simp only [transition_to]
    split
    · rfl
    · split
      · rfl
      · exact ih _ _
      · rfl
      · rfl

/-- The exit step emits either no hook or exactly one exit hook, of a state
that is currently set and registered. -/
theorem exitStep_shape (m : StateMachine S CTX E) :
    (exitStep m).2 = [] ∨
    ∃ s h, m.current_state = some s ∧ m.states s = some h ∧ (exitStep m).2 = [Hook.exit s] := by
  unfold exitStep
  cases hc : m.current_state with
  | none => left; rfl
  | some s =>
    cases hs : m.states s with
    | none => left; simp [hs]
    | some h => right; exact ⟨s, h, rfl, hs, by simp [hs]⟩

/-- No hook of an unregistered state appears in the exit step's trace. -/
theorem exitStep_no_hook_of_unregistered (m : StateMachine S CTX E) (id : S)
    (hmiss : m.states id = none) :
    Hook.enter id ∉ (exitStep m).2 ∧ Hook.exit id ∉ (exitStep m).2 := by
  rcases exitStep_shape m with h | ⟨s, hstf, _, hreg, h⟩
  · rw [h]
    exact ⟨List.not_mem_nil _, List.not_mem_nil _⟩
  · rw [h]
    simp only [List.mem_singleton]
    refine ⟨by simp, ?_⟩
    simp only [Hook.exit.injEq]
    rintro rfl
    rw [hreg] at hmiss
    exact Option.noConfusion hmiss

/-- Structural invariant of the transition protocol: a successful run settles
on a registered state, and a `StateNotRegistered id` failure leaves
`current_state = some id` with `id` unregistered while no hook of `id` ever
ran. -/
theorem transition_to_registration (fuel : Nat) :
    ∀ (m : StateMachine S CTX E) (t : S) (out : Outcome S) (m2 : StateMachine S CTX E)
      (tr : List (Hook S)), transition_to fuel m t = (out, m2, tr) →
      ((out = Outcome.ok → ∀ s : S, m2.current_state = some s → (m.states s).isSome = true) ∧
       (∀ id : S, out = Outcome.err (Error.StateNotRegistered id) →
          m2.current_state = some id ∧ m.states id = none ∧
          Hook.enter id ∉ tr ∧ Hook.exit id ∉ tr)) := by
  induction fuel with
  | zero =>
    intro m t out m2 tr heq
    simp only [transition_to] at heq
    injection heq with h1 h23
    injection h23 with h2 h3
    subst h1; subst h2; subst h3
    constructor
    · intro hok; exact Outcome.noConfusion hok
    · intro id hid; exact Outcome.noConfusion hid
  | succ f ih =>
    intro m t out m2 tr heq
    simp only [transition_to] at heq
    split at heq
    case _ hs =>
      injection heq with h1 h23
      injection h23 with h2 h3
      subst h1; subst h2; subst h3
      constructor
      · intro hok; exact Outcome.noConfusion hok
      · intro id hid
        injection hid with herr
        injection herr with hid2
        subst hid2
        exact ⟨rfl, hs, (exitStep_no_hook_of_unregistered m t hs).1,
          (exitStep_no_hook_of_unregistered m t hs).2⟩
    case _ h hs =>
      split at heq
      case _ hr =>
        injection heq with h1 h23
        injection h23 with h2 h3
        subst h1; subst h2; subst h3
        constructor
        · intro _ s hcur
          injection hcur with hts
          subst hts
          rw [hs]; rfl
        · intro id hid; exact Outcome.noConfusion hid
      case _ ns hr =>
        injection heq with h1 h23
        injection h23 with h2 h3
        subst h1; subst h2; subst h3
        have IH := ih { m with context := (h.on_enter (exitStep m).1).2, current_state := some t } ns
          (transition_to f { m with context := (h.on_enter (exitStep m).1).2, current_state := some t } ns).1
          (transition_to f { m with context := (h.on_enter (exitStep m).1).2, current_state := some t } ns).2.1
          (transition_to f { m with context := (h.on_enter (exitStep m).1).2, current_state := some t } ns).2.2
          rfl
        constructor
        · intro hok s hcur
          exact IH.1 hok s hcur
        · intro id hid
          have Hx := IH.2 id hid
          have htid : t ≠ id := by
            rintro rfl
            rw [hs] at Hx
            exact Option.noConfusion Hx.2.1
          refine ⟨Hx.1, Hx.2.1, ?_, ?_⟩
          · intro hmem
            rcases List.mem_append.mp hmem with hmem1 | hmem2
            · exact (exitStep_no_hook_of_unregistered m id Hx.2.1).1 hmem1
            · rcases List.mem_cons.mp hmem2 with hhd | htl
              · exact htid (by injection hhd with hinj; exact hinj.symm)
              · exact Hx.2.2.1 htl
          · intro hmem
            rcases List.mem_append.mp hmem with hmem1 | hmem2
            · exact (exitStep_no_hook_of_unregistered m id Hx.2.1).2 hmem1
            · rcases List.mem_cons.mp hmem2 with hhd | htl
              · exact Hook.noConfusion hhd
              · exact Hx.2.2.2 htl
      case _ msg hr =>
        injection heq with h1 h23
        injection h23 with h2 h3
        subst h1; subst h2; subst h3
        constructor
        · intro hok; exact Outcome.noConfusion hok
        · intro id hid
          injection hid with herr
          exact Error.noConfusion herr
      case _ hr =>
        injection heq with h1 h23
        injection h23 with h2 h3
        subst h1; subst h2; subst h3
        constructor
        · intro hok; exact Outcome.noConfusion hok
        · intro id hid
          injection hid with herr
          exact Error.noConfusion herr

/-- C2 counterexample: starting from the unregistered-target scenario,
`init 0` succeeds, and processing one event — whose handler requests a
transition to the unregistered state `1` — returns `StateNotRegistered 1` yet
leaves `current_state = some 1` with `1` absent from the registry.  So after
a sequence of `init` and `process_event` calls the current-state slot CAN
hold an unregistered identifier, contrary to the claim's invariant. -/
theorem c2_current_can_hold_unregistered :
    (init 1 mMissingStart 0).1 = Outcome.ok ∧
    (process_event 1 1 (init 1 mMissingStart 0).2.1 ()).1 =
      Outcome.err (Error.StateNotRegistered 1) ∧
    mMissing.current_state = some 1 ∧
    mMissing.states 1 = none :=
  ⟨rfl, rfl, rfl, rfl⟩

/-- C2 (amended): absence of a transition target from the registry is
detected and surfaced as `StateNotRegistered` before any hook of that state
runs (neither its enter nor its exit hook appears in the trace), and a run
that returns successfully always settles on a registered state; however,
`current_state` is set to the target BEFORE the registry check, so after the
failed call the current-state slot holds the unregistered identifier. -/
theorem c2_registration_checked_before_hooks (fuel : Nat) (m : StateMachine S CTX E) (t : S) :
    ((transition_to fuel m t).1 = Outcome.ok →
      ∀ s : S, (transition_to fuel m t).2.1.current_state = some s → (m.states s).isSome = true) ∧
    (∀ id : S, (transition_to fuel m t).1 = Outcome.err (Error.StateNotRegistered id) →
      (transition_to fuel m t).2.1.current_state = some id ∧ m.states id = none ∧
      Hook.enter id ∉ (transition_to fuel m t).2.2 ∧ Hook.exit id ∉ (transition_to fuel m t).2.2) :=
  transition_to_registration fuel m t (transition_to fuel m t).1
    (transition_to fuel m t).2.1 (transition_to fuel m t).2.2 rfl

/-- C2 witness: a successful transition of `mTimeout` to state `0` settles on
the registered state `0`; and in the unregistered-target scenario, the failed
transition to `1` leaves `current_state = some 1`, `1` unregistered, and no
hook of `1` in the trace. -/
theorem c2_registration_witness :
    ((mTimeout.states 0).isSome = true) ∧
    ((transition_to 1 (init 1 mMissingStart 0).2.1 1).2.1.current_state = some 1 ∧
      (init 1 mMissingStart 0).2.1.states 1 = none ∧
      Hook.enter 1 ∉ (transition_to 1 (init 1 mMissingStart 0).2.1 1).2.2 ∧
      Hook.exit 1 ∉ (transition_to 1 (init 1 mMissingStart 0).2.1 1).2.2) :=
  ⟨(c2_registration_checked_before_hooks 1 mTimeout 0).1 rfl 0 rfl,
   (c2_registration_checked_before_hooks 1 (init 1 mMissingStart 0).2.1 1).2 1 rfl⟩

/-- The exit step never emits an enter hook. -/
theorem exitStep_count_enter [DecidableEq S] (m : StateMachine S CTX E) (L : S) :
    ((exitStep m).2).count (Hook.enter L) = 0 := by
  rcases exitStep_shape m with h | ⟨s, hstf, hc, hreg, h⟩
  · rw [h]; rfl
  · rw [h, List.count_singleton]
    simp

/-- For a registered state `L`, the exit step emits `exit L` exactly when `L`
is the current state (and then exactly once). -/
theorem exitStep_count_exit [DecidableEq S] (m : StateMachine S CTX E) (L : S)
    (hL : Stateful S CTX E) (hreg : m.states L = some hL) :
    ((exitStep m).2).count (Hook.exit L) = if m.current_state = some L then 1 else 0 := by
  unfold exitStep
  cases hc : m.current_state with
  | none => simp
  | some s =>
    cases hss : m.states s with
    | none =>
      have hsL : s ≠ L := by
        rintro rfl
        rw [hreg] at hss
        exact Option.noConfusion hss
      simp [hss, hsL]
    | some h2 =>
      by_cases hsl : s = L
      · subst hsl
        simp [hss]
      · simp [hss, List.count_singleton, hsl]

/-- Count invariant of the transition protocol for a state `L` whose
`on_enter` unconditionally requests a transition: in every successful run the
trace carries exactly one `exit L` per `enter L` (plus one more if `L` was
the state the run started from), and the run never settles on `L`. -/
theorem c1_count_aux [DecidableEq S] (L : S) (hL : Stateful S CTX E) (X : S)
    (henter : ∀ c : CTX, (hL.on_enter c).1 = Response.Transition X) (fuel : Nat) :
    ∀ (m : StateMachine S CTX E) (t : S) (m2 : StateMachine S CTX E) (tr : List (Hook S)),
      m.states L = some hL →
      transition_to fuel m t = (Outcome.ok, m2, tr) →
      m2.current_state ≠ some L ∧
      tr.count (Hook.exit L) =
        tr.count (Hook.enter L) + (if m.current_state = some L then 1 else 0) := by
  induction fuel with
  | zero =>
    intro m t m2 tr hreg heq
    simp only [transition_to] at heq
    injection heq with h1 _
    exact Outcome.noConfusion h1
  | succ f ih =>
    intro m t m2 tr hreg heq
    simp only [transition_to] at heq
    split at heq
    case _ hs =>
      injection heq with h1 _
      exact Outcome.noConfusion h1
    case _ h hs =>
      split at heq
      case _ hr =>
        injection heq with h1 h23
        injection h23 with h2 h3
        subst h2; subst h3
        have htL : t ≠ L := by
          rintro rfl
          rw [hreg] at hs
          injection hs with hh
          subst hh
          rw [henter (exitStep m).1] at hr
          exact Response.noConfusion hr
        refine ⟨by simp [htL], ?_⟩
        rw [List.count_append, List.count_append,
          exitStep_count_exit m L hL hreg, exitStep_count_enter m L,
          List.count_singleton, List.count_singleton]
        simp [htL]
      case _ ns hr =>
        injection heq with h1 h23
        injection h23 with h2 h3
        subst h2; subst h3
        have heq2 : transition_to f
            { m with context := (h.on_enter (exitStep m).1).2, current_state := some t } ns =
            (Outcome.ok,
             (transition_to f { m with context := (h.on_enter (exitStep m).1).2, current_state := some t } ns).2.1,
             (transition_to f { m with context := (h.on_enter (exitStep m).1).2, current_state := some t } ns).2.2) := by
          rw [← h1]
        have IH := ih { m with context := (h.on_enter (exitStep m).1).2, current_state := some t } ns
          (transition_to f { m with context := (h.on_enter (exitStep m).1).2, current_state := some t } ns).2.1
          (transition_to f { m with context := (h.on_enter (exitStep m).1).2, current_state := some t } ns).2.2
          hreg heq2
        refine ⟨IH.1, ?_⟩
        rw [List.count_append, List.count_append,
          exitStep_count_exit m L hL hreg, exitStep_count_enter m L,
          ← List.singleton_append, List.count_append, List.count_append,
          List.count_singleton, List.count_singleton]
        have e1 : ((Hook.enter t : Hook S) == Hook.exit L) = false := by simp
        have hrest := IH.2
        simp only [Option.some.injEq] at hrest
        by_cases htL : t = L
        · rw [if_pos htL] at hrest
          have e2 : ((Hook.enter t : Hook S) == Hook.enter L) = true := by simp [htL]
          simp only [e1, e2]
          simp only [if_true]
          simp only [Bool.false_eq_true, if_false]
          omega
        · rw [if_neg htL] at hrest
          have e2 : ((Hook.enter t : Hook S) == Hook.enter L) = false := by simp [htL]
          simp only [e1, e2]
          simp only [Bool.false_eq_true, if_false]
          omega
      case _ msg hr =>
        injection heq with h1 _
        exact Outcome.noConfusion h1
      case _ hr =>
        injection heq with h1 _
        exact Outcome.noConfusion h1

/-- A successful run of the transition protocol always records the enter hook
of its first target. -/
theorem transition_to_ok_mem_enter (f : Nat) (m : StateMachine S CTX E) (t : S)
    (m2 : StateMachine S CTX E) (tr : List (Hook S))
    (h : transition_to (f + 1) m t = (Outcome.ok, m2, tr)) : Hook.enter t ∈ tr := by
  simp only [transition_to] at h
  split at h
  case _ hs =>
    injection h with h1 _
    exact Outcome.noConfusion h1
  case _ h0 hs =>
    split at h
    case _ hr =>
      injection h with h1 h23
      injection h23 with h2 h3
      rw [← h3]
      exact List.mem_append_right _ (List.mem_singleton.mpr rfl)
    case _ ns hr =>
      injection h with h1 h23
      injection h23 with h2 h3
      rw [← h3]
      exact List.mem_append_right _ (List.mem_cons_self _ _)
    case _ msg hr =>
      injection h with h1 _
      exact Outcome.noConfusion h1
    case _ hr =>
      injection h with h1 _
      exact Outcome.noConfusion h1

/-- Whenever the transition protocol runs at least one iteration while the
current state is set and registered, that state's exit hook is recorded. -/
theorem transition_to_mem_exit (g : Nat) (m : StateMachine S CTX E) (x t0 : S)
    (h0 : Stateful S CTX E) (out : Outcome S) (m2 : StateMachine S CTX E) (tr : List (Hook S))
    (hc : m.current_state = some t0) (hreg0 : m.states t0 = some h0)
    (h : transition_to (g + 1) m x = (out, m2, tr)) : Hook.exit t0 ∈ tr := by
  have hex : (exitStep m).2 = [Hook.exit t0] := by simp [exitStep, hc, hreg0]
  simp only [transition_to] at h
  split at h
  case _ hs =>
    injection h with _ h23
    injection h23 with h2 h3
    rw [← h3, hex]
    exact List.mem_singleton.mpr rfl
  case _ hstf hs =>
    split at h <;>
    · injection h with h1 h23
      injection h23 with h2 h3
      rw [← h3, hex]
      exact List.mem_append_left _ (List.mem_singleton.mpr rfl)

/-- C1: when the transition protocol is pointed at a state `L` (not currently
active) whose `on_enter` unconditionally returns `Transition X` and the call
returns successfully, then: the settled current state is never `L`; the trace
shows `L`'s enter hook, `L`'s exit hook (run as the "previous" state of the
next loop iteration) and `X`'s enter hook; and the trace carries exactly one
`exit L` per `enter L` — the just-entered looping state is exited exactly
once, not twice. -/
theorem c1_enter_transition_chain (m : StateMachine S CTX E) [DecidableEq S] (L X : S)
    (hL : Stateful S CTX E) (fuel : Nat) (m2 : StateMachine S CTX E) (tr : List (Hook S))
    (hreg : m.states L = some hL)
    (henter : ∀ c : CTX, (hL.on_enter c).1 = Response.Transition X)
    (hcur : m.current_state ≠ some L)
    (hrun : transition_to fuel m L = (Outcome.ok, m2, tr)) :
    m2.current_state ≠ some L ∧
    Hook.enter L ∈ tr ∧ Hook.exit L ∈ tr ∧ Hook.enter X ∈ tr ∧
    tr.count (Hook.exit L) = tr.count (Hook.enter L) := by
  have hmain := c1_count_aux L hL X henter fuel m L m2 tr hreg hrun
  have hcnt : tr.count (Hook.exit L) = tr.count (Hook.enter L) := by
    have h2 := hmain.2
    rw [if_neg hcur] at h2
    simpa using h2
  cases fuel with
  | zero =>
    simp only [transition_to] at hrun
    injection hrun with h1 _
    exact Outcome.noConfusion h1
  | succ f =>
    simp only [transition_to] at hrun
    rw [hreg] at hrun
    simp only [henter] at hrun
    injection hrun with h1 h23
    injection h23 with h2 h3
    have henterL : Hook.enter L ∈ tr := by
      rw [← h3]
      exact List.mem_append_right _ (List.mem_cons_self _ _)
    cases f with
    | zero =>
      simp only [transition_to] at h1
      exact absurd h1 (by simp)
    | succ g =>
      have hexitL : Hook.exit L ∈
          (transition_to (g + 1)
            { m with context := (hL.on_enter (exitStep m).1).2, current_state := some L } X).2.2 := by
        refine transition_to_mem_exit g
          { m with context := (hL.on_enter (exitStep m).1).2, current_state := some L }
          X L hL _ _ _ rfl hreg rfl
      have hre : transition_to (g + 1)
          { m with context := (hL.on_enter (exitStep m).1).2, current_state := some L } X =
          (Outcome.ok,
           (transition_to (g + 1)
             { m with context := (hL.on_enter (exitStep m).1).2, current_state := some L } X).2.1,
           (transition_to (g + 1)
             { m with context := (hL.on_enter (exitStep m).1).2, current_state := some L } X).2.2) := by
        rw [← h1]
      have henterX := transition_to_ok_mem_enter g _ X _ _ hre
      refine ⟨hmain.1, henterL, ?_, ?_, hcnt⟩
      · rw [← h3]
        exact List.mem_append_right _ (List.mem_cons_of_mem _ hexitL)
      · rw [← h3]
        exact List.mem_append_right _ (List.mem_cons_of_mem _ henterX)

/-- C1 witness: initializing the fresh engine over `regLoop` into the looping
state `1` (whose enter hook re-transitions to `0`) settles on `0`, with trace
`[enter 1, exit 1, enter 0]`: the chain ran `1`'s enter, then exactly one
exit of `1`, then `0`'s enter. -/
theorem c1_enter_transition_chain_witness :
    ({ states := regLoop, current_state := some 0, context := 0,
       superstate_fn := fun _ => none, initial_state := none } :
        StateMachine Nat Nat Unit).current_state ≠ some 1 ∧
    Hook.enter 1 ∈ [Hook.enter 1, Hook.exit 1, Hook.enter 0] ∧
    Hook.exit 1 ∈ [Hook.enter 1, Hook.exit 1, Hook.enter 0] ∧
    Hook.enter 0 ∈ [Hook.enter 1, Hook.exit 1, Hook.enter 0] ∧
    ([Hook.enter 1, Hook.exit 1, Hook.enter 0] : List (Hook Nat)).count (Hook.exit 1) =
      ([Hook.enter 1, Hook.exit 1, Hook.enter 0] : List (Hook Nat)).count (Hook.enter 1) :=
  c1_enter_transition_chain mLoop 1 0 enterLoopHandler 2
    { states := regLoop, current_state := some 0, context := 0,
      superstate_fn := fun _ => none, initial_state := none }
    [Hook.enter 1, Hook.exit 1, Hook.enter 0]
    rfl (fun _ => rfl) (by decide) rfl

end Fsm
